import Mathlib

/-!
Shallow embedding of `async-autotiling` (src/main.rs): the sway IPC tree
data model, the skip predicate `should_skip`, the split decision rule
`run_autotile`, and the event loop of `main`, together with theorems
checking the specification's claims.

Modelling conventions:
* `f64` quantities (the `--ratio` flag, a node's `percent`) are modelled
  as rationals; machine integers (the `i32` rectangle sides, `i64` node
  ids) as `Int`.
* IPC calls are modelled by an oracle (`Ipc`) holding the replies the
  window manager would give; each function returns the ordered trace of
  IPC requests it issues (`List IpcOp`) together with its `Result`.
* Logging is modelled where a claim mentions it (the event loop); the
  `logger.info` call inside `run_autotile` only prints and is not part
  of any claim, so it is not traced.
-/

namespace Autotiling

/-- Layout of a sway node (swayipc `NodeLayout`). -/
inductive NodeLayout where
  | splitH
  | splitV
  | tabbed
  | stacked
  | output
  | noLayout
  deriving DecidableEq, Repr

/-- Kind of a sway node (swayipc `NodeType`). -/
inductive NodeType where
  | root
  | output
  | con
  | floatingCon
  | workspace
  | dockarea
  deriving DecidableEq, Repr

/-- A node's rectangle (swayipc `Rect`, `i32` fields). -/
structure Rect where
  x : Int
  y : Int
  width : Int
  height : Int
  deriving DecidableEq, Repr

/-- A node of the sway tree (the fields of swayipc `Node` that
`main.rs` reads): rectangle, layout, node type, focus flag, optional
fullscreen `percent`, the focus path `focus`, and the child lists
`nodes` and `floating_nodes`. -/
inductive Node where
  | mk (id : Int) (focused : Bool) (layout : NodeLayout) (nodeType : NodeType)
      (percent : Option ℚ) (rect : Rect) (focus : List Int)
      (nodes : List Node) (floatingNodes : List Node)

def Node.id : Node → Int
  | .mk i _ _ _ _ _ _ _ _ => i

def Node.focused : Node → Bool
  | .mk _ f _ _ _ _ _ _ _ => f

def Node.layout : Node → NodeLayout
  | .mk _ _ l _ _ _ _ _ _ => l

def Node.nodeType : Node → NodeType
  | .mk _ _ _ t _ _ _ _ _ => t

def Node.percent : Node → Option ℚ
  | .mk _ _ _ _ p _ _ _ _ => p

def Node.rect : Node → Rect
  | .mk _ _ _ _ _ r _ _ _ => r

def Node.focus : Node → List Int
  | .mk _ _ _ _ _ _ f _ _ => f

def Node.nodes : Node → List Node
  | .mk _ _ _ _ _ _ _ ns _ => ns

def Node.floatingNodes : Node → List Node
  | .mk _ _ _ _ _ _ _ _ fs => fs

mutual

/-- Size measure used for recursion over the tree. -/
def Node.size : Node → Nat
  | .mk _ _ _ _ _ _ _ ns fs => 1 + Node.sizeList ns + Node.sizeList fs

def Node.sizeList : List Node → Nat
  | [] => 0
  | n :: ns => Node.size n + Node.sizeList ns

end

theorem Node.size_pos (n : Node) : 1 ≤ n.size := by
  cases n with
  | mk i f l t p r fo ns fs => simp [Node.size]; omega

theorem Node.size_le_sizeList {n : Node} {l : List Node} (h : n ∈ l) :
    Node.size n ≤ Node.sizeList l := by
  induction l with
  | nil => cases h
  | cons m ms ih =>
    cases h with
    | head => simp [Node.sizeList]
    | tail _ hm => have := ih hm; simp [Node.sizeList]; omega

theorem Node.size_lt_of_mem_children {c n : Node}
    (h : c ∈ n.nodes ++ n.floatingNodes) : Node.size c < Node.size n := by
  cases n with
  | mk i f l t p r fo ns fs =>
    simp [Node.nodes, Node.floatingNodes] at h
    cases h with
    | inl h => have := Node.size_le_sizeList h; simp [Node.size]; omega
    | inr h => have := Node.size_le_sizeList h; simp [Node.size]; omega

/-- Model of swayipc's `Node::find_focused_as_ref`: starting from the
root, return the first node on the focus path that satisfies the
predicate; descend by following `focus.first()` into the matching child
among `nodes` and `floating_nodes`. -/
def findFocusedAsRef (pred : Node → Bool) (n : Node) : Option Node :=
  if pred n then some n
  else
    match n.focus.head? with
    | Option.none => Option.none
    | Option.some first =>
      match h : (n.nodes ++ n.floatingNodes).find? (fun c => c.id == first) with
      | Option.none => Option.none
      | Option.some child => findFocusedAsRef pred child
termination_by Node.size n
decreasing_by
  exact Node.size_lt_of_mem_children (List.mem_of_find?_eq_some h)

/-- The predicate `run_autotile` passes to `find_focused_as_ref`
(main.rs line 137): the node's direct children (`nodes`) contain a
focused node. -/
def hasFocusedChild (n : Node) : Bool :=
  n.nodes.any (fun child => child.focused)

/-- `should_skip` (main.rs lines 173-178): skip a node whose `percent`
is present and greater than 1.0 (fullscreen), whose node type is
`FloatingCon`, or whose own layout is `Tabbed` or `Stacked`. -/
def should_skip (node : Node) : Bool :=
  let is_fullscreen := (node.percent.map (fun p => decide (p > 1))).getD false
  let is_floating := node.nodeType == NodeType.floatingCon
  (node.layout == NodeLayout.tabbed || node.layout == NodeLayout.stacked) ||
    is_fullscreen || is_floating

/-- The split-direction choice of `run_autotile` (main.rs lines
144-152): vertical when `height > width / ratio`, horizontal
otherwise. -/
def newLayout (rect : Rect) (ratio : ℚ) : NodeLayout :=
  if (rect.height : ℚ) > (rect.width : ℚ) / ratio then NodeLayout.splitV
  else NodeLayout.splitH

/-- The CLI arguments `run_autotile` reads. -/
structure Args where
  ratio : ℚ
  workspace : List String
  once : Bool
  quiet : Bool

/-- A workspace as returned by `get_workspaces`: the two fields
`get_focused_workspace_name` reads. -/
structure Workspace where
  name : String
  focused : Bool

/-- One outbound IPC request. -/
inductive IpcOp where
  | getTree
  | getWorkspaces
  | runCommand (cmd : String)
  deriving DecidableEq, Repr

/-- IPC oracle: the replies the window manager gives to this
invocation's requests over the command connection. -/
structure Ipc where
  tree : Except String Node
  workspaces : Except String (List Workspace)
  runCommandResult : String → Except String Unit

/-- `get_focused_workspace_name` (main.rs lines 181-187) applied to the
fetched workspace list: the name of the first workspace whose `focused`
flag is set, if any. -/
def get_focused_workspace_name (workspaces : List Workspace) : Option String :=
  (workspaces.find? (fun ws => ws.focused)).map (fun ws => ws.name)

/-- The body of `run_autotile` after the workspace filter (main.rs
lines 137-168): find the focused node's parent, find the focused child,
skip or compare the desired layout with the parent's, issuing at most
one split command. `ops` is the trace of IPC requests issued so far. -/
def autotileCore (conn : Ipc) (args : Args) (tree : Node) (ops : List IpcOp) :
    List IpcOp × Except String Unit :=
  match findFocusedAsRef hasFocusedChild tree with
  | Option.none => (ops, Except.ok ())
  | Option.some parent =>
    match parent.nodes.find? (fun n => n.focused) with
    | Option.none => (ops, Except.ok ())
    | Option.some focused_node =>
      if should_skip focused_node then (ops, Except.ok ())
      else
        let new_layout := newLayout focused_node.rect args.ratio
        if new_layout ≠ parent.layout then
          let cmd := if new_layout = NodeLayout.splitV then "splitv" else "splith"
          match conn.runCommandResult cmd with
          | Except.error e => (ops ++ [IpcOp.runCommand cmd], Except.error e)
          | Except.ok _ => (ops ++ [IpcOp.runCommand cmd], Except.ok ())
        else (ops, Except.ok ())

/-- `run_autotile` (main.rs lines 122-170): fetch the tree, apply the
workspace allow-list filter, then run the core decision rule. Returns
the trace of IPC requests together with the `Result`. -/
def run_autotile (conn : Ipc) (args : Args) : List IpcOp × Except String Unit :=
  match conn.tree with
  | Except.error e => ([IpcOp.getTree], Except.error e)
  | Except.ok tree =>
    if args.workspace ≠ [] then
      match conn.workspaces with
      | Except.error e => ([IpcOp.getTree, IpcOp.getWorkspaces], Except.error e)
      | Except.ok wss =>
        match get_focused_workspace_name wss with
        | Option.some ws_name =>
          if ws_name ∉ args.workspace then
            ([IpcOp.getTree, IpcOp.getWorkspaces], Except.ok ())
          else
            autotileCore conn args tree [IpcOp.getTree, IpcOp.getWorkspaces]
        | Option.none => ([IpcOp.getTree, IpcOp.getWorkspaces], Except.ok ())
    else
      autotileCore conn args tree [IpcOp.getTree]

/-- Number of `run_command` requests in an IPC trace. -/
def commandCount (ops : List IpcOp) : Nat :=
  ops.countP (fun op => match op with
    | IpcOp.runCommand _ => true
    | _ => false)

/-- The one-shot branch of `main` (main.rs lines 74-79): connect the
command connection, run `run_autotile` once, propagate its error or
exit with success. The first component lists the IPC trace of each
`run_autotile` invocation. -/
def main_once (connect : Except String Ipc) (args : Args) :
    List (List IpcOp) × Except String Unit :=
  match connect with
  | Except.error e => ([], Except.error e)
  | Except.ok conn =>
    match run_autotile conn args with
    | (ops, Except.error e) => ([ops], Except.error e)
    | (ops, Except.ok _) => ([ops], Except.ok ())

/-- A window event's change type (swayipc `WindowChange`; the loop only
distinguishes `Focus`). -/
inductive WindowChange where
  | focus
  | new
  | close
  | title
  | fullscreenMode
  | move
  | floating
  | urgent
  | mark
  deriving DecidableEq

/-- One item of the subscription stream, as `events.next()` yields it:
a window event (with the IPC oracle the command connection would answer
with at that moment), a non-window event, or a stream error. A stream
error carries the error text and how many reconnect attempts fail
before one succeeds. The end of the list models `None` (stream end). -/
inductive StreamItem where
  | window (change : WindowChange) (conn : Ipc)
  | otherEvent
  | streamError (msg : String) (failedReconnects : Nat)

/-- `logger.error` / `logger.info` (main.rs lines 57-66): emit the
message unless quiet mode is set. -/
def loggerLine (is_quiet : Bool) (msg : String) : List String :=
  if is_quiet then [] else [msg]

/-- The continuous event loop of `main` (main.rs lines 86-116): on a
window event with change `Focus`, run `run_autotile`, logging (and not
propagating) any error; ignore other events; on a stream error, log and
reconnect, logging each failed attempt, then continue. Returns the log
output; the loop itself never returns an error. -/
def event_loop (args : Args) : List StreamItem → List String
  | [] => []
  | StreamItem.window change conn :: rest =>
    (if change = WindowChange.focus then
      match (run_autotile conn args).2 with
      | Except.error e => loggerLine args.quiet ("Error during auto-tiling: " ++ e)
      | Except.ok _ => []
    else []) ++ event_loop args rest
  | StreamItem.otherEvent :: rest => event_loop args rest
  | StreamItem.streamError msg fails :: rest =>
    loggerLine args.quiet ("Event stream error: " ++ msg ++ ". Attempting to reconnect...") ++
      (List.replicate fails "Failed to reconnect. Retrying in 5 seconds...").flatMap
        (fun m => loggerLine args.quiet m) ++
      loggerLine args.quiet "Reconnected event stream successfully." ++
      event_loop args rest

/-- `m` is a node of the tree rooted at `n` (reachable through `nodes`
or `floating_nodes`). -/
inductive IsSubnode : Node → Node → Prop where
  | refl (n : Node) : IsSubnode n n
  | child {m c n : Node} (hc : c ∈ n.nodes ++ n.floatingNodes)
      (h : IsSubnode m c) : IsSubnode m n

theorem findFocusedAsRef_some_aux (pred : Node → Bool) :
    ∀ (k : Nat) (n m : Node), Node.size n ≤ k →
      findFocusedAsRef pred n = Option.some m →
      pred m = true ∧ IsSubnode m n := by
  intro k
  induction k with
  | zero =>
    intro n m hk
    have := Node.size_pos n
    omega
  | succ k ih =>
    intro n m hk hfind
    rw [findFocusedAsRef] at hfind
    by_cases hp : pred n
    · simp [hp] at hfind
      subst hfind
      exact ⟨hp, IsSubnode.refl n⟩
    · simp [hp] at hfind
      rcases hh : n.focus.head? with _ | first
      · rw [hh] at hfind; simp at hfind
      · rw [hh] at hfind
        simp at hfind
        rcases hc : (n.nodes ++ n.floatingNodes).find? (fun c => c.id == first)
          with _ | child
        · rw [hc] at hfind; simp at hfind
        · rw [hc] at hfind
          simp at hfind
          have hmem := List.mem_of_find?_eq_some hc
          have hlt := Node.size_lt_of_mem_children hmem
          obtain ⟨h1, h2⟩ := ih child m (by omega) hfind
          exact ⟨h1, IsSubnode.child hmem h2⟩

/-- If no node of the tree satisfies the predicate, the focus-path
search returns nothing. -/
theorem findFocusedAsRef_eq_none (pred : Node → Bool) (n : Node)
    (h : ∀ m, IsSubnode m n → pred m = false) :
    findFocusedAsRef pred n = Option.none := by
  cases hf : findFocusedAsRef pred n with
  | none => rfl
  | some m =>
    obtain ⟨hp, hs⟩ := findFocusedAsRef_some_aux pred (Node.size n) n m le_rfl hf
    rw [h m hs] at hp
    cases hp

theorem autotileCore_trace (conn : Ipc) (args : Args) (tree : Node)
    (ops : List IpcOp) :
    (autotileCore conn args tree ops).1 = ops ∨
      ∃ cmd, (autotileCore conn args tree ops).1 = ops ++ [IpcOp.runCommand cmd] := by
  rcases hf : findFocusedAsRef hasFocusedChild tree with _ | parent
  · left; simp [autotileCore, hf]
  · rcases hfoc : parent.nodes.find? (fun n => n.focused) with _ | focused_node
    · left; simp [autotileCore, hf, hfoc]
    · by_cases hs : should_skip focused_node
      · left; simp [autotileCore, hf, hfoc, hs]
      · by_cases hne : newLayout focused_node.rect args.ratio = parent.layout
        · left; simp [autotileCore, hf, hfoc, hs, hne]
        · rcases hrc : conn.runCommandResult
              (if newLayout focused_node.rect args.ratio = NodeLayout.splitV
                then "splitv" else "splith") with e | u
          · right
            exact ⟨if newLayout focused_node.rect args.ratio = NodeLayout.splitV
              then "splitv" else "splith", by simp [autotileCore, hf, hfoc, hs, hne, hrc]⟩
          · right
            exact ⟨if newLayout focused_node.rect args.ratio = NodeLayout.splitV
              then "splitv" else "splith", by simp [autotileCore, hf, hfoc, hs, hne, hrc]⟩

theorem autotileCore_skip {tree parent focused_node : Node}
    (conn : Ipc) (args : Args) (ops : List IpcOp)
    (hfind : findFocusedAsRef hasFocusedChild tree = Option.some parent)
    (hfoc : parent.nodes.find? (fun n => n.focused) = Option.some focused_node)
    (hskip : should_skip focused_node = true) :
    autotileCore conn args tree ops = (ops, Except.ok ()) := by
  simp [autotileCore, hfind, hfoc, hskip]

theorem autotileCore_layout_eq {tree parent focused_node : Node}
    (conn : Ipc) (args : Args) (ops : List IpcOp)
    (hfind : findFocusedAsRef hasFocusedChild tree = Option.some parent)
    (hfoc : parent.nodes.find? (fun n => n.focused) = Option.some focused_node)
    (heq : newLayout focused_node.rect args.ratio = parent.layout) :
    autotileCore conn args tree ops = (ops, Except.ok ()) := by
  by_cases hs : should_skip focused_node
  · simp [autotileCore, hfind, hfoc, hs]
  · simp [autotileCore, hfind, hfoc, hs, heq]

/-- When the core issues nothing, the whole of `run_autotile` issues no
command. -/
theorem run_autotile_no_cmd {conn : Ipc} {args : Args} {tree : Node}
    (htree : conn.tree = Except.ok tree)
    (h : ∀ ops, (autotileCore conn args tree ops).1 = ops) :
    commandCount (run_autotile conn args).1 = 0 := by
  by_cases hws : args.workspace = []
  · have hc := h [IpcOp.getTree]
    simp [run_autotile, htree, hws, hc, commandCount]
  · rcases hwss : conn.workspaces with e | wss
    · simp [run_autotile, htree, hws, hwss, commandCount]
    · rcases hn : get_focused_workspace_name wss with _ | ws_name
      · simp [run_autotile, htree, hws, hwss, hn, commandCount]
      · by_cases hmem : ws_name ∈ args.workspace
        · have hc := h [IpcOp.getTree, IpcOp.getWorkspaces]
          simp [run_autotile, htree, hws, hwss, hn, hmem, hc, commandCount]
        · simp [run_autotile, htree, hws, hwss, hn, hmem, commandCount]

/-- When the core issues nothing and the workspace fetch cannot fail,
`run_autotile` issues no command and returns success. -/
theorem run_autotile_ok_no_cmd {conn : Ipc} {args : Args} {tree : Node}
    (htree : conn.tree = Except.ok tree)
    (h : ∀ ops, autotileCore conn args tree ops = (ops, Except.ok ()))
    (hW : args.workspace = [] ∨ ∃ wss, conn.workspaces = Except.ok wss) :
    commandCount (run_autotile conn args).1 = 0 ∧
      (run_autotile conn args).2 = Except.ok () := by
  by_cases hws : args.workspace = []
  · have hc := h [IpcOp.getTree]
    constructor <;> simp [run_autotile, htree, hws, hc, commandCount]
  · rcases hW with hW | ⟨wss, hwss⟩
    · exact absurd hW hws
    · rcases hn : get_focused_workspace_name wss with _ | ws_name
      · constructor <;> simp [run_autotile, htree, hws, hwss, hn, commandCount]
      · by_cases hmem : ws_name ∈ args.workspace
        · have hc := h [IpcOp.getTree, IpcOp.getWorkspaces]
          constructor <;> simp [run_autotile, htree, hws, hwss, hn, hmem, hc, commandCount]
        · constructor <;> simp [run_autotile, htree, hws, hwss, hn, hmem, commandCount]

/-- If the predicate already holds at the root, the search returns the
root. -/
theorem findFocusedAsRef_of_pred_root {pred : Node → Bool} {n : Node}
    (h : pred n = true) : findFocusedAsRef pred n = Option.some n := by
  rw [findFocusedAsRef]
  simp [h]

/-! Concrete fixtures used by counterexamples and witnesses. -/

/-- A focused tiled leaf, taller than wide, with no `percent`. -/
def tallLeaf : Node :=
  Node.mk 2 true NodeLayout.noLayout NodeType.con Option.none
    ⟨0, 0, 100, 200⟩ [] [] []

/-- A tabbed container whose only (focused) child is `tallLeaf`. -/
def tabbedParent : Node :=
  Node.mk 1 false NodeLayout.tabbed NodeType.con Option.none
    ⟨0, 0, 100, 200⟩ [2] [tallLeaf] []

/-- A horizontal-split container whose only (focused) child is
`tallLeaf`. -/
def plainParent : Node :=
  Node.mk 1 false NodeLayout.splitH NodeType.con Option.none
    ⟨0, 0, 100, 200⟩ [2] [tallLeaf] []

/-- A vertical-split container whose only (focused) child is
`tallLeaf`. -/
def vertParent : Node :=
  Node.mk 1 false NodeLayout.splitV NodeType.con Option.none
    ⟨0, 0, 100, 200⟩ [2] [tallLeaf] []

/-- A focused container whose own layout is tabbed. -/
def tabbedChild : Node :=
  Node.mk 3 true NodeLayout.tabbed NodeType.con Option.none
    ⟨0, 0, 100, 200⟩ [] [] []

/-- A horizontal-split container whose only (focused) child is the
tabbed container `tabbedChild`. -/
def parentOfTabbedChild : Node :=
  Node.mk 1 false NodeLayout.splitH NodeType.con Option.none
    ⟨0, 0, 800, 600⟩ [3] [tabbedChild] []

/-- A focused floating leaf. -/
def floatingLeaf : Node :=
  Node.mk 4 true NodeLayout.noLayout NodeType.floatingCon Option.none
    ⟨0, 0, 100, 200⟩ [] [] []

/-- A horizontal-split container whose only (focused) child is
`floatingLeaf`. -/
def parentOfFloating : Node :=
  Node.mk 1 false NodeLayout.splitH NodeType.con Option.none
    ⟨0, 0, 800, 600⟩ [4] [floatingLeaf] []

/-- A single focused node with no children at all: the tree holds no
parent/child pair. -/
def lonely : Node :=
  Node.mk 1 true NodeLayout.splitH NodeType.con Option.none
    ⟨0, 0, 800, 600⟩ [] [] []

/-- An oracle answering every request, with `tabbedParent` as tree. -/
def tabbedConn : Ipc :=
  ⟨Except.ok tabbedParent, Except.ok [], fun _ => Except.ok ()⟩

/-- An oracle answering every request, with `plainParent` as tree. -/
def plainConn : Ipc :=
  ⟨Except.ok plainParent, Except.ok [], fun _ => Except.ok ()⟩

/-- An oracle answering every request, with `vertParent` as tree. -/
def vertConn : Ipc :=
  ⟨Except.ok vertParent, Except.ok [], fun _ => Except.ok ()⟩

/-- An oracle answering every request, with `parentOfTabbedChild` as
tree. -/
def tabbedChildConn : Ipc :=
  ⟨Except.ok parentOfTabbedChild, Except.ok [], fun _ => Except.ok ()⟩

/-- An oracle answering every request, with `parentOfFloating` as
tree. -/
def floatingConn : Ipc :=
  ⟨Except.ok parentOfFloating, Except.ok [], fun _ => Except.ok ()⟩

/-- An oracle answering every request, with `lonely` as tree. -/
def lonelyConn : Ipc :=
  ⟨Except.ok lonely, Except.ok [⟨"web", true⟩], fun _ => Except.ok ()⟩

/-- An oracle whose tree fetch fails. -/
def errConn : Ipc :=
  ⟨Except.error "boom", Except.ok [], fun _ => Except.ok ()⟩

/-- Default arguments: ratio 1, no workspace filter. -/
def plainArgs : Args := ⟨1, [], false, false⟩

/-- Arguments restricting the rule to workspace "dev". -/
def wsArgs : Args := ⟨1, ["dev"], false, false⟩

theorem newLayout_tallLeaf : newLayout (Node.rect tallLeaf) 1 = NodeLayout.splitV := by
  norm_num [newLayout, tallLeaf, Node.rect]

/-- With no workspace filter configured, `run_autotile` is the core
rule after the tree fetch. -/
theorem run_autotile_no_ws {conn : Ipc} {args : Args} {tree : Node}
    (htree : conn.tree = Except.ok tree)
    (hws : args.workspace = []) :
    run_autotile conn args = autotileCore conn args tree [IpcOp.getTree] := by
  simp [run_autotile, htree, hws]

/-- The command-issuing path of the core, specialised to a vertical
split that succeeds. -/
theorem autotileCore_issues_splitv {tree parent focused_node : Node}
    {conn : Ipc} {args : Args} (ops : List IpcOp)
    (hfind : findFocusedAsRef hasFocusedChild tree = Option.some parent)
    (hfoc : parent.nodes.find? (fun n => n.focused) = Option.some focused_node)
    (hskip : should_skip focused_node = false)
    (hnl : newLayout focused_node.rect args.ratio = NodeLayout.splitV)
    (hne : ¬ (NodeLayout.splitV = parent.layout))
    (hrc : conn.runCommandResult "splitv" = Except.ok ()) :
    autotileCore conn args tree ops =
      (ops ++ [IpcOp.runCommand "splitv"], Except.ok ()) := by
  simp [autotileCore, hfind, hfoc, hskip, hnl, hne, hrc]

/-- Full evaluation of `run_autotile` over the tabbed-parent tree: a
`splitv` command is issued. -/
theorem run_autotile_tabbedConn :
    run_autotile tabbedConn plainArgs =
      ([IpcOp.getTree, IpcOp.runCommand "splitv"], Except.ok ()) := by
  rw [@run_autotile_no_ws tabbedConn plainArgs tabbedParent rfl rfl]
  exact autotileCore_issues_splitv [IpcOp.getTree]
    (findFocusedAsRef_of_pred_root (by rfl)) rfl rfl newLayout_tallLeaf
    (by simp [tabbedParent, Node.layout]) rfl

/-- Full evaluation over the horizontal-split parent: a `splitv`
command is issued (the focused leaf has no `percent`). -/
theorem run_autotile_plainConn :
    run_autotile plainConn plainArgs =
      ([IpcOp.getTree, IpcOp.runCommand "splitv"], Except.ok ()) := by
  rw [@run_autotile_no_ws plainConn plainArgs plainParent rfl rfl]
  exact autotileCore_issues_splitv [IpcOp.getTree]
    (findFocusedAsRef_of_pred_root (by rfl)) rfl rfl newLayout_tallLeaf
    (by simp [plainParent, Node.layout]) rfl

/-! The claims. -/

/-- C1: for every focused node's rectangle and every configured ratio,
the decision rule selects a vertical split exactly when
`height > width / ratio`, and a horizontal split otherwise (including
equality). -/
theorem decision_rule_threshold (rect : Rect) (ratio : ℚ) :
    (newLayout rect ratio = NodeLayout.splitV ↔
      (rect.height : ℚ) > (rect.width : ℚ) / ratio) ∧
    (newLayout rect ratio = NodeLayout.splitH ↔
      ¬ (rect.height : ℚ) > (rect.width : ℚ) / ratio) := by
  unfold newLayout
  by_cases h : (rect.height : ℚ) > (rect.width : ℚ) / ratio <;> simp [h]

/-- C2 counterexample: a tree whose focused node's parent has layout
tabbed, while the focused node itself is tiled, has no `percent`, and
its own layout is neither tabbed nor stacked — yet the rule issues a
split command, because `should_skip` tests the focused node's own
layout, not its parent's. -/
theorem tabbed_parent_command_issued :
    Node.layout tabbedParent = NodeLayout.tabbed ∧
    findFocusedAsRef hasFocusedChild tabbedParent = Option.some tabbedParent ∧
    (Node.nodes tabbedParent).find? (fun n => n.focused) = Option.some tallLeaf ∧
    Node.layout tallLeaf ≠ NodeLayout.tabbed ∧
    Node.layout tallLeaf ≠ NodeLayout.stacked ∧
    commandCount (run_autotile tabbedConn plainArgs).1 = 1 := by
  refine ⟨rfl, findFocusedAsRef_of_pred_root (by rfl), rfl, by decide, by decide, ?_⟩
  rw [run_autotile_tabbedConn]
  rfl

/-- C2 amended: for every tree in which the focused node's OWN layout
is tabbed or stacked, the decision rule skips and issues no split
command, regardless of the parent's layout. -/
theorem skip_on_focused_tabbed_stacked (conn : Ipc) (args : Args)
    (tree parent focused_node : Node)
    (htree : conn.tree = Except.ok tree)
    (hfind : findFocusedAsRef hasFocusedChild tree = Option.some parent)
    (hfoc : parent.nodes.find? (fun n => n.focused) = Option.some focused_node)
    (hlay : focused_node.layout = NodeLayout.tabbed ∨
      focused_node.layout = NodeLayout.stacked) :
    commandCount (run_autotile conn args).1 = 0 := by
  refine run_autotile_no_cmd htree (fun ops => ?_)
  have hskip : should_skip focused_node = true := by
    rcases hlay with h | h <;> simp [should_skip, h]
  rw [autotileCore_skip conn args ops hfind hfoc hskip]

theorem skip_on_focused_tabbed_stacked_witness :
    commandCount (run_autotile tabbedChildConn plainArgs).1 = 0 :=
  skip_on_focused_tabbed_stacked tabbedChildConn plainArgs
    parentOfTabbedChild parentOfTabbedChild tabbedChild rfl
    (findFocusedAsRef_of_pred_root (by rfl)) rfl (Or.inl rfl)

/-- C3: when the parent's current layout already equals the desired
layout computed from the focused node's rectangle, no command is
issued. -/
theorem no_command_when_layout_matches (conn : Ipc) (args : Args)
    (tree parent focused_node : Node)
    (htree : conn.tree = Except.ok tree)
    (hfind : findFocusedAsRef hasFocusedChild tree = Option.some parent)
    (hfoc : parent.nodes.find? (fun n => n.focused) = Option.some focused_node)
    (heq : newLayout focused_node.rect args.ratio = parent.layout) :
    commandCount (run_autotile conn args).1 = 0 := by
  refine run_autotile_no_cmd htree (fun ops => ?_)
  rw [autotileCore_layout_eq conn args ops hfind hfoc heq]

theorem no_command_when_layout_matches_witness :
    commandCount (run_autotile vertConn plainArgs).1 = 0 :=
  no_command_when_layout_matches vertConn plainArgs vertParent vertParent tallLeaf
    rfl (findFocusedAsRef_of_pred_root (by rfl)) rfl newLayout_tallLeaf

/-- C4: a focused node that is floating (`FloatingCon`) or fullscreen
(`percent` present and greater than 1.0) never triggers a command. -/
theorem no_command_when_floating_or_fullscreen (conn : Ipc) (args : Args)
    (tree parent focused_node : Node)
    (htree : conn.tree = Except.ok tree)
    (hfind : findFocusedAsRef hasFocusedChild tree = Option.some parent)
    (hfoc : parent.nodes.find? (fun n => n.focused) = Option.some focused_node)
    (hff : focused_node.nodeType = NodeType.floatingCon ∨
      ∃ p, focused_node.percent = Option.some p ∧ p > 1) :
    commandCount (run_autotile conn args).1 = 0 := by
  refine run_autotile_no_cmd htree (fun ops => ?_)
  have hskip : should_skip focused_node = true := by
    rcases hff with h | ⟨p, hp, hgt⟩
    · simp [should_skip, h]
    · simp [should_skip, hp, hgt]
  rw [autotileCore_skip conn args ops hfind hfoc hskip]

theorem no_command_when_floating_or_fullscreen_witness :
    commandCount (run_autotile floatingConn plainArgs).1 = 0 :=
  no_command_when_floating_or_fullscreen floatingConn plainArgs
    parentOfFloating parentOfFloating floatingLeaf rfl
    (findFocusedAsRef_of_pred_root (by rfl)) rfl (Or.inl rfl)

/-- C5: with a non-empty workspace allow-list, if the focused
workspace's name is absent or not in the list, the rule returns success
having issued only the tree and workspace fetches (no command, nothing
further); with an allow-listed focused workspace it proceeds to the
core rule. -/
theorem workspace_filter_gates_rule (conn : Ipc) (args : Args)
    (tree : Node) (wss : List Workspace)
    (htree : conn.tree = Except.ok tree)
    (hne : args.workspace ≠ [])
    (hwss : conn.workspaces = Except.ok wss) :
    (get_focused_workspace_name wss = Option.none →
      run_autotile conn args = ([IpcOp.getTree, IpcOp.getWorkspaces], Except.ok ())) ∧
    (∀ nm, get_focused_workspace_name wss = Option.some nm → nm ∉ args.workspace →
      run_autotile conn args = ([IpcOp.getTree, IpcOp.getWorkspaces], Except.ok ())) ∧
    (∀ nm, get_focused_workspace_name wss = Option.some nm → nm ∈ args.workspace →
      run_autotile conn args =
        autotileCore conn args tree [IpcOp.getTree, IpcOp.getWorkspaces]) := by
  refine ⟨fun hn => ?_, fun nm hn hmem => ?_, fun nm hn hmem => ?_⟩
  · simp [run_autotile, htree, hne, hwss, hn]
  · simp [run_autotile, htree, hne, hwss, hn, hmem]
  · simp [run_autotile, htree, hne, hwss, hn, hmem]

theorem workspace_filter_gates_rule_witness :
    run_autotile lonelyConn wsArgs =
      ([IpcOp.getTree, IpcOp.getWorkspaces], Except.ok ()) :=
  (workspace_filter_gates_rule lonelyConn wsArgs lonely [⟨"web", true⟩]
    rfl (by decide) rfl).2.1 "web" rfl (by decide)

/-- C6: when no node of the tree has a focused direct child (no
parent/child pair exists), the rule issues no command and returns
success. -/
theorem no_parent_child_pair_no_action (conn : Ipc) (args : Args) (tree : Node)
    (htree : conn.tree = Except.ok tree)
    (hnone : ∀ m, IsSubnode m tree → hasFocusedChild m = false)
    (hW : args.workspace = [] ∨ ∃ wss, conn.workspaces = Except.ok wss) :
    commandCount (run_autotile conn args).1 = 0 ∧
      (run_autotile conn args).2 = Except.ok () := by
  refine run_autotile_ok_no_cmd htree (fun ops => ?_) hW
  have hf := findFocusedAsRef_eq_none hasFocusedChild tree hnone
  simp [autotileCore, hf]

theorem no_parent_child_pair_no_action_witness :
    commandCount (run_autotile lonelyConn plainArgs).1 = 0 ∧
      (run_autotile lonelyConn plainArgs).2 = Except.ok () :=
  no_parent_child_pair_no_action lonelyConn plainArgs lonely rfl
    (fun m hm => by
      cases hm with
      | refl => rfl
      | child hc _ => simp [lonely, Node.nodes, Node.floatingNodes] at hc)
    (Or.inl rfl)

/-- C7: one invocation of the decision rule issues at most one outbound
`run_command` request. -/
theorem at_most_one_command (conn : Ipc) (args : Args) :
    commandCount (run_autotile conn args).1 ≤ 1 := by
  rcases htree : conn.tree with e | tree
  · simp [run_autotile, htree, commandCount]
  · by_cases hws : args.workspace = []
    · rcases autotileCore_trace conn args tree [IpcOp.getTree] with h | ⟨cmd, h⟩ <;>
        simp [run_autotile, htree, hws, h, commandCount]
    · rcases hwss : conn.workspaces with e | wss
      · simp [run_autotile, htree, hws, hwss, commandCount]
      · rcases hn : get_focused_workspace_name wss with _ | nm
        · simp [run_autotile, htree, hws, hwss, hn, commandCount]
        · by_cases hmem : nm ∈ args.workspace
          · rcases autotileCore_trace conn args tree
              [IpcOp.getTree, IpcOp.getWorkspaces] with h | ⟨cmd, h⟩ <;>
              simp [run_autotile, htree, hws, hwss, hn, hmem, h, commandCount]
          · simp [run_autotile, htree, hws, hwss, hn, hmem, commandCount]

/-- C8: in one-shot mode, the program runs the decision rule exactly
once over the command connection and exits with the rule's result
(success, or the first error); a failed startup connection is itself
propagated. -/
theorem main_once_runs_rule_once (conn : Ipc) (args : Args) :
    (main_once (Except.ok conn) args).1 = [(run_autotile conn args).1] ∧
    (main_once (Except.ok conn) args).2 = (run_autotile conn args).2 ∧
    ∀ e, main_once (Except.error e) args = ([], Except.error e) := by
  refine ⟨?_, ?_, fun e => rfl⟩ <;>
  · rcases h : run_autotile conn args with ⟨ops, r⟩
    rcases r with e | u <;> simp [main_once, h]

/-- C9: in continuous mode, an error returned by the decision rule on a
focus event is logged (unless quiet) and not propagated, and the loop
goes on to process the remaining events unchanged. -/
theorem event_loop_logs_and_continues (args : Args) (conn : Ipc)
    (rest : List StreamItem) (e : String)
    (herr : (run_autotile conn args).2 = Except.error e) :
    event_loop args (StreamItem.window WindowChange.focus conn :: rest) =
      loggerLine args.quiet ("Error during auto-tiling: " ++ e) ++
        event_loop args rest := by
  simp [event_loop, herr]

theorem event_loop_logs_and_continues_witness :
    event_loop plainArgs [StreamItem.window WindowChange.focus errConn] =
      loggerLine plainArgs.quiet ("Error during auto-tiling: " ++ "boom") ++
        event_loop plainArgs [] :=
  event_loop_logs_and_continues plainArgs errConn [] "boom"
    (by simp [run_autotile, errConn])

/-- C10: a focused node whose `percent` is absent is not treated as
fullscreen — `should_skip` then reduces to the own-layout and floating
tests alone — and such a node can still trigger a split command. -/
theorem percent_none_not_fullscreen :
    (∀ node : Node, node.percent = Option.none →
      should_skip node = (node.layout == NodeLayout.tabbed ||
        node.layout == NodeLayout.stacked ||
        node.nodeType == NodeType.floatingCon)) ∧
    Node.percent tallLeaf = Option.none ∧
    commandCount (run_autotile plainConn plainArgs).1 = 1 := by
  refine ⟨fun node h => ?_, rfl, ?_⟩
  · simp [should_skip, h]
  · rw [run_autotile_plainConn]
    rfl

theorem percent_none_not_fullscreen_witness :
    should_skip tallLeaf = (Node.layout tallLeaf == NodeLayout.tabbed ||
      Node.layout tallLeaf == NodeLayout.stacked ||
      Node.nodeType tallLeaf == NodeType.floatingCon) :=
  percent_none_not_fullscreen.1 tallLeaf rfl

end Autotiling
